import Mathlib

/-!
# Card configurator (`src/Downloads/02-setup-guide/src/App.jsx`)

A shallow embedding of the rendering and configuration engine of the card
configurator: the lighting rig (`setupLighting`), the material derivation
(the `MeshPhysicalMaterial` construction followed by `updateMaterial`), the
card outline (the `THREE.Shape` commands), the texture upload path
(`handleUpload`) and the life cycle of the effect (mount, cleanup, re-run,
frame loop).

Numbers are exact rationals: `0.5` is `1/2`, `85.6` is `428/5`.  An angle is
recorded in units of π, so `Math.PI / 6` is `1/6`.
-/

namespace CardConfigurator

/-! ## Scene graph and lights -/

/-- The subclasses of `THREE.Light`.  The program constructs the first four;
the last two stand for lights another rig may have left in a scene. -/
inductive LightKind where
  | ambient
  | directional
  | hemisphere
  | spot
  | point
  | rectArea
  deriving DecidableEq, Repr

/-- A light as the program configures it.  `groundColor` is the second colour
of a `HemisphereLight`; `position` is `none` when the program never calls
`position.set` on the light; `angle` (in units of π) is `none` when the
program never assigns `angle`. -/
structure Light where
  kind : LightKind
  color : Nat
  groundColor : Option Nat
  intensity : ℚ
  position : Option (ℚ × ℚ × ℚ)
  angle : Option ℚ
  deriving DecidableEq, Repr

/-- A child of the scene: a mesh (the card is `mesh 0`), a light, or any other
node that is not a light. -/
inductive Object3D where
  | mesh (id : Nat)
  | light (l : Light)
  | other (id : Nat)
  deriving DecidableEq, Repr

/-- The test `child instanceof THREE.Light`. -/
def Object3D.isLight : Object3D → Bool
  | .light _ => true
  | _ => false

/-- The call `scene.add(object)` for a freshly constructed object: the object is
pushed at the end of `scene.children`. -/
def sceneAdd (children : List Object3D) (o : Object3D) : List Object3D :=
  children ++ [o]

/-- `new THREE.AmbientLight(0xffffff, 0.5)`. -/
def ambientLight : Light :=
  { kind := .ambient, color := 0xffffff, groundColor := none, intensity := 1/2,
    position := none, angle := none }

/-- `new THREE.DirectionalLight(0xffffff, 1)` with `position.set(1, 1, 1)`. -/
def mainLight : Light :=
  { kind := .directional, color := 0xffffff, groundColor := none, intensity := 1,
    position := some (1, 1, 1), angle := none }

/-- `new THREE.DirectionalLight(0xffffff, 0.3)` with `position.set(-1, -1, 1)`. -/
def fillLight : Light :=
  { kind := .directional, color := 0xffffff, groundColor := none, intensity := 3/10,
    position := some (-1, -1, 1), angle := none }

/-- `new THREE.DirectionalLight(0xffffff, 1.5)` with `position.set(5, 5, 5)`. -/
def sunLight : Light :=
  { kind := .directional, color := 0xffffff, groundColor := none, intensity := 3/2,
    position := some (5, 5, 5), angle := none }

/-- `new THREE.HemisphereLight(0x87ceeb, 0x404040, 1)`. -/
def skyLight : Light :=
  { kind := .hemisphere, color := 0x87ceeb, groundColor := some 0x404040, intensity := 1,
    position := none, angle := none }

/-- `new THREE.SpotLight(0xffffff, 2)` with `position.set(3, 3, 3)` and
`angle = Math.PI / 6`. -/
def spotLight : Light :=
  { kind := .spot, color := 0xffffff, groundColor := none, intensity := 2,
    position := some (3, 3, 3), angle := some (1/6) }

/-- `new THREE.DirectionalLight(0x404040, 0.5)` with `position.set(-2, -2, -2)`. -/
def rimLight : Light :=
  { kind := .directional, color := 0x404040, groundColor := none, intensity := 1/2,
    position := some (-2, -2, -2), angle := none }

/-- The function `setupLighting(sceneType)` acting on `scene.children`: the
lights are filtered out, then the `switch` adds the lights of the matching
case; a scene type matching no case adds nothing. -/
def setupLighting (sceneType : String) (children : List Object3D) : List Object3D :=
  let children := children.filter (fun child => !child.isLight)
  if sceneType = "studio" then
    let children := sceneAdd children (.light ambientLight)
    let children := sceneAdd children (.light mainLight)
    sceneAdd children (.light fillLight)
  else if sceneType = "outdoor" then
    let children := sceneAdd children (.light sunLight)
    sceneAdd children (.light skyLight)
  else if sceneType = "dramatic" then
    let children := sceneAdd children (.light spotLight)
    sceneAdd children (.light rimLight)
  else
    children

/-- The lights attached to a scene, in the order of `scene.children`. -/
def lightsOf (children : List Object3D) : List Light :=
  children.filterMap (fun child => match child with
    | .light l => some l
    | _ => none)

/-- The children of a scene that are not lights, in the order of
`scene.children`. -/
def nonLights (children : List Object3D) : List Object3D :=
  children.filter (fun child => !child.isLight)

/-! ## Configuration and material -/

/-- A texture object made by `THREE.TextureLoader.load`: `id` tells the objects
apart, `image` is the file it decodes. -/
structure Texture where
  id : Nat
  image : Nat
  deriving DecidableEq, Repr

/-- The component state of `App` (the fourteen `useState` cells). -/
structure Config where
  selectedColor : String
  metalness : ℚ
  roughness : ℚ
  edgeColor : String
  finish : String
  selectedScene : String
  opacity : ℚ
  reliefHeight : ℚ
  hotFoilColor : String
  grainSize : ℚ
  colorMap : Option Texture
  normalMap : Option Texture
  roughnessMap : Option Texture
  metalnessMap : Option Texture
  deriving DecidableEq, Repr

/-- The initial values given to `useState`. -/
def Config.initial : Config :=
  { selectedColor := "#2196f3", metalness := 1/2, roughness := 1/5,
    edgeColor := "#000000", finish := "glossy", selectedScene := "studio",
    opacity := 1, reliefHeight := 0, hotFoilColor := "#FFD700", grainSize := 1/2,
    colorMap := none, normalMap := none, roughnessMap := none, metalnessMap := none }

/-- The values of the `side` property of a material. -/
inductive Side where
  | front
  | back
  | double
  deriving DecidableEq, Repr

/-- The fields of the `MeshPhysicalMaterial` the program sets.  `color` is the
style string handed to the colour (`color: selectedColor`, `color.setStyle`). -/
structure Material where
  color : String
  metalness : ℚ
  roughness : ℚ
  transparent : Bool
  opacity : ℚ
  clearcoat : ℚ
  clearcoatRoughness : ℚ
  side : Side
  map : Option Texture
  normalMap : Option Texture
  roughnessMap : Option Texture
  metalnessMap : Option Texture
  needsUpdate : Bool
  deriving DecidableEq, Repr

/-- The construction `new THREE.MeshPhysicalMaterial(...)` of the effect. -/
def newMaterial (cfg : Config) : Material :=
  { color := cfg.selectedColor
    metalness := cfg.metalness
    roughness := cfg.roughness
    transparent := true
    opacity := cfg.opacity
    clearcoat := if cfg.finish = "glossy" then 1 else 0
    clearcoatRoughness := if cfg.finish = "glossy" then 1/10 else 1/2
    side := .double
    map := cfg.colorMap
    normalMap := cfg.normalMap
    roughnessMap := cfg.roughnessMap
    metalnessMap := cfg.metalnessMap
    needsUpdate := false }

/-- The function `updateMaterial`: under the guard `if (material)` every listed
field is reassigned from the component state. -/
def updateMaterial (cfg : Config) (material : Option Material) : Option Material :=
  match material with
  | none => none
  | some m =>
    some { m with
      color := cfg.selectedColor
      metalness := cfg.metalness
      roughness := cfg.roughness
      opacity := cfg.opacity
      clearcoat := if cfg.finish = "glossy" then 1 else 0
      clearcoatRoughness := if cfg.finish = "glossy" then 1/10 else 1/2
      map := cfg.colorMap
      normalMap := cfg.normalMap
      roughnessMap := cfg.roughnessMap
      metalnessMap := cfg.metalnessMap
      needsUpdate := true }

/-- The material one run of the effect leaves on the card: the construction
followed by the call `updateMaterial()`. -/
def deriveMaterial (cfg : Config) : Option Material :=
  updateMaterial cfg (some (newMaterial cfg))

/-- The value `textureChannels[channel]` of the component state. -/
def Config.channel (cfg : Config) (channel : String) : Option Texture :=
  if channel = "color" then cfg.colorMap
  else if channel = "normal" then cfg.normalMap
  else if channel = "roughness" then cfg.roughnessMap
  else if channel = "metalness" then cfg.metalnessMap
  else none

/-- The material slot a channel is bound to: `map`, `normalMap`,
`roughnessMap`, `metalnessMap`. -/
def Material.slot (m : Material) (channel : String) : Option Texture :=
  if channel = "color" then m.map
  else if channel = "normal" then m.normalMap
  else if channel = "roughness" then m.roughnessMap
  else if channel = "metalness" then m.metalnessMap
  else none

/-- The four channel names the upload buttons use. -/
def channels : List String := ["color", "normal", "roughness", "metalness"]

/-! ## Card outline -/

/-- A segment of a `THREE.Path`: a `LineCurve` or a `QuadraticBezierCurve`. -/
inductive Curve where
  | line (v1 v2 : ℚ × ℚ)
  | quadratic (v0 v1 v2 : ℚ × ℚ)
  deriving DecidableEq, Repr

/-- A `THREE.Path`: the current point and the segments added so far. -/
structure Path where
  currentPoint : ℚ × ℚ
  curves : List Curve
  deriving DecidableEq, Repr

/-- The path `new THREE.Shape()` starts from. -/
def Path.empty : Path := { currentPoint := (0, 0), curves := [] }

/-- `moveTo(x, y)`. -/
def Path.moveTo (p : Path) (x y : ℚ) : Path :=
  { p with currentPoint := (x, y) }

/-- `lineTo(x, y)`: a line from the current point. -/
def Path.lineTo (p : Path) (x y : ℚ) : Path :=
  { currentPoint := (x, y), curves := p.curves ++ [.line p.currentPoint (x, y)] }

/-- `quadraticCurveTo(cpx, cpy, x, y)`: a quadratic curve from the current
point with control point `(cpx, cpy)`. -/
def Path.quadraticCurveTo (p : Path) (cpx cpy x y : ℚ) : Path :=
  { currentPoint := (x, y),
    curves := p.curves ++ [.quadratic p.currentPoint (cpx, cpy) (x, y)] }

/-- The outline of the card, command by command, for a card of the given
width, height and corner radius (the source fixes 85.6, 53.98 and 3.48). -/
def cardShape (cardWidth cardHeight cornerRadius : ℚ) : Path :=
  let x := -cardWidth / 2
  let y := -cardHeight / 2
  let shape := Path.empty
  let shape := shape.moveTo (x + cornerRadius) y
  let shape := shape.lineTo (x + cardWidth - cornerRadius) y
  let shape := shape.quadraticCurveTo (x + cardWidth) y (x + cardWidth) (y + cornerRadius)
  let shape := shape.lineTo (x + cardWidth) (y + cardHeight - cornerRadius)
  let shape := shape.quadraticCurveTo (x + cardWidth) (y + cardHeight)
    (x + cardWidth - cornerRadius) (y + cardHeight)
  let shape := shape.lineTo (x + cornerRadius) (y + cardHeight)
  let shape := shape.quadraticCurveTo x (y + cardHeight) x (y + cardHeight - cornerRadius)
  let shape := shape.lineTo x (y + cornerRadius)
  shape.quadraticCurveTo x y (x + cornerRadius) y

/-- The constants `cardWidth`, `cardHeight` and `cornerRadius` of the source. -/
def cardWidth : ℚ := 428/5

def cardHeight : ℚ := 2699/50

def cornerRadius : ℚ := 87/25

/-- The point a segment starts from. -/
def Curve.startPoint : Curve → ℚ × ℚ
  | .line v1 _ => v1
  | .quadratic v0 _ _ => v0

/-- The point a segment ends at. -/
def Curve.endPoint : Curve → ℚ × ℚ
  | .line _ v2 => v2
  | .quadratic _ _ v2 => v2

/-- The control point of a quadratic curve. -/
def Curve.controlPoint : Curve → Option (ℚ × ℚ)
  | .line _ _ => none
  | .quadratic _ v1 _ => some v1

/-- The end points and control point of a segment. -/
def Curve.points : Curve → List (ℚ × ℚ)
  | .line v1 v2 => [v1, v2]
  | .quadratic v0 v1 v2 => [v0, v1, v2]

/-- The point of a segment at parameter `t`: linear interpolation on a line,
the quadratic Bezier polynomial on a curve. -/
def Curve.getPoint (c : Curve) (t : ℚ) : ℚ × ℚ :=
  match c with
  | .line v1 v2 => (v1.1 + t * (v2.1 - v1.1), v1.2 + t * (v2.2 - v1.2))
  | .quadratic v0 v1 v2 =>
    ((1 - t) ^ 2 * v0.1 + 2 * (1 - t) * t * v1.1 + t ^ 2 * v2.1,
     (1 - t) ^ 2 * v0.2 + 2 * (1 - t) * t * v1.2 + t ^ 2 * v2.2)

/-- Each segment of the list starts where the one before it ends. -/
def connected : List Curve → Prop
  | [] => True
  | [_] => True
  | c :: d :: rest => c.endPoint = d.startPoint ∧ connected (d :: rest)

/-- The point lies in the closed box `[x0, x1] × [y0, y1]`. -/
def inBox (x0 x1 y0 y1 : ℚ) (p : ℚ × ℚ) : Prop :=
  x0 ≤ p.1 ∧ p.1 ≤ x1 ∧ y0 ≤ p.2 ∧ p.2 ≤ y1

/-- The closed path through the segments does not cross or touch itself: two
positions `(i, t)` and `(j, u)` with `i ≤ j` give the same point only when they
are the same position, or the two sides of a joint (the end of a segment and the
start of the next one, the end of the last segment and the start of the first
one), or when the point is an edge of length zero. -/
def simpleOutline (curves : List Curve) : Prop :=
  ∀ (i j : Nat) (ci cj : Curve) (t u : ℚ), i ≤ j →
    curves[i]? = some ci → curves[j]? = some cj →
    0 ≤ t → t ≤ 1 → 0 ≤ u → u ≤ 1 → ci.getPoint t = cj.getPoint u →
    (i = j ∧ t = u) ∨ (j = i + 1 ∧ t = 1 ∧ u = 0)
    ∨ (i = 0 ∧ j + 1 = curves.length ∧ t = 0 ∧ u = 1)
    ∨ ∃ (k : Nat) (v : ℚ × ℚ), curves[k]? = some (Curve.line v v) ∧ ci.getPoint t = v

/-! ## The component: effect, frame loop, uploads -/

/-- An object on which the program may call `dispose()`: the geometry, the
material or the renderer made by a run of the effect (runs are numbered from
0), or a texture. -/
inductive Resource where
  | geometry (run : Nat)
  | material (run : Nat)
  | renderer (run : Nat)
  | texture (t : Texture)
  deriving DecidableEq, Repr

/-- A `textureLoader.load` call in flight: the texture it will hand to its
callback and the `mapType` the callback closes over. -/
structure Upload where
  texture : Texture
  mapType : String
  deriving DecidableEq, Repr

/-- The component together with what its effect has set up in the browser.
`current` is the run whose closure is live; `children` and `material` are the
`scene.children` and `material` of that run; `listeners` are the runs whose
`handleResize` is registered on the window; `frameQueue` holds the runs whose
`animate` is waiting in `requestAnimationFrame`; `rendered` logs the calls of
`renderer.render` and `disposed` the calls of `dispose()`; `pending` are the
texture loads in flight, in the order they were issued. -/
structure App where
  config : Config
  runs : Nat
  current : Nat
  children : List Object3D
  material : Option Material
  outline : Path
  listeners : List Nat
  frameQueue : List Nat
  rendered : List Nat
  disposed : List Resource
  pending : List Upload
  nextTexture : Nat
  deriving DecidableEq, Repr

/-- The function `animate` of run `run`: it requests the next frame for itself,
then renders with the renderer of its run. -/
def animate (run : Nat) (a : App) : App :=
  { a with frameQueue := a.frameQueue ++ [run], rendered := a.rendered ++ [run] }

/-- One run of the effect body with the current component state: renderer,
scene and camera, the card outline and geometry, the material, the card mesh,
`setupLighting(selectedScene)`, the resize listener, `animate()` and
`updateMaterial()`. -/
def runEffect (a : App) : App :=
  let run := a.runs
  let outline := cardShape cardWidth cardHeight cornerRadius
  let material := some (newMaterial a.config)
  let children := sceneAdd [] (.mesh run)
  let children := setupLighting a.config.selectedScene children
  let a := { a with runs := run + 1, current := run, children := children,
                    material := material, outline := outline,
                    listeners := a.listeners ++ [run] }
  let a := animate run a
  { a with material := updateMaterial a.config a.material }

/-- The cleanup function the effect returns, for the live run: the resize
listener is removed and `dispose()` is called on the geometry, the material and
the renderer. -/
def cleanup (a : App) : App :=
  { a with listeners := a.listeners.erase a.current,
           disposed := a.disposed ++
             [.geometry a.current, .material a.current, .renderer a.current] }

/-- The component before its first render commits: the initial state, nothing
set up. -/
def App.unmounted : App :=
  { config := Config.initial, runs := 0, current := 0, children := [], material := none,
    outline := Path.empty, listeners := [], frameQueue := [], rendered := [],
    disposed := [], pending := [], nextTexture := 0 }

/-- The mounted component: the effect has run once. -/
def App.mounted : App := runEffect App.unmounted

/-- A state setter called with the value that turns the state into `f config`.
When no cell changes React keeps the effect as it is; when one changes, every
cell being a dependency of the effect, the cleanup of the live run executes and
the effect runs again. -/
def setState (f : Config → Config) (a : App) : App :=
  let config := f a.config
  if config = a.config then a
  else runEffect (cleanup { a with config := config })

/-- The function `handleUpload(event, mapType)`, `file` being
`event.target.files[0]`: with a file, a load is started; without, nothing
happens. -/
def handleUpload (file : Option Nat) (mapType : String) (a : App) : App :=
  match file with
  | none => a
  | some f =>
    { a with
      pending := a.pending ++ [{ texture := { id := a.nextTexture, image := f },
                                 mapType := mapType }],
      nextTexture := a.nextTexture + 1 }

/-- The callback `handleUpload` gives to `textureLoader.load`: the `switch` on
`mapType`. -/
def onLoad (mapType : String) (texture : Texture) (a : App) : App :=
  if mapType = "color" then setState (fun c => { c with colorMap := some texture }) a
  else if mapType = "normal" then setState (fun c => { c with normalMap := some texture }) a
  else if mapType = "roughness" then
    setState (fun c => { c with roughnessMap := some texture }) a
  else if mapType = "metalness" then
    setState (fun c => { c with metalnessMap := some texture }) a
  else a

/-- The decode of the load at position `i` of the loads in flight completes: the
load leaves the list and its callback runs with its texture. -/
def loaded (i : Nat) (a : App) : App :=
  match a.pending[i]? with
  | none => a
  | some u => onLoad u.mapType u.texture { a with pending := a.pending.eraseIdx i }

/-- The decode of the load at position `i` fails: no error callback was given,
the load leaves the list and nothing else happens. -/
def loadFailed (i : Nat) (a : App) : App :=
  { a with pending := a.pending.eraseIdx i }

/-- The browser runs one animation frame: every callback waiting in
`requestAnimationFrame` is called once; what they request waits for the frame
after. -/
def frame (a : App) : App :=
  a.frameQueue.foldl (fun a run => animate run a) { a with frameQueue := [] }

/-- What can happen to the mounted component: a control of the panel calls its
setter, an upload button calls `handleUpload`, a load completes or fails, the
browser runs a frame. -/
inductive Event where
  | setSelectedColor (v : String)
  | setEdgeColor (v : String)
  | setMetalness (v : ℚ)
  | setRoughness (v : ℚ)
  | setOpacity (v : ℚ)
  | setFinish (v : String)
  | setSelectedScene (v : String)
  | setReliefHeight (v : ℚ)
  | setHotFoilColor (v : String)
  | setGrainSize (v : ℚ)
  | upload (file : Option Nat) (mapType : String)
  | loaded (i : Nat)
  | loadFailed (i : Nat)
  | frame
  deriving DecidableEq, Repr

/-- The effect of one event. -/
def step (a : App) : Event → App
  | .setSelectedColor v => setState (fun c => { c with selectedColor := v }) a
  | .setEdgeColor v => setState (fun c => { c with edgeColor := v }) a
  | .setMetalness v => setState (fun c => { c with metalness := v }) a
  | .setRoughness v => setState (fun c => { c with roughness := v }) a
  | .setOpacity v => setState (fun c => { c with opacity := v }) a
  | .setFinish v => setState (fun c => { c with finish := v }) a
  | .setSelectedScene v => setState (fun c => { c with selectedScene := v }) a
  | .setReliefHeight v => setState (fun c => { c with reliefHeight := v }) a
  | .setHotFoilColor v => setState (fun c => { c with hotFoilColor := v }) a
  | .setGrainSize v => setState (fun c => { c with grainSize := v }) a
  | .upload file mapType => handleUpload file mapType a
  | .loaded i => loaded i a
  | .loadFailed i => loadFailed i a
  | .frame => frame a

/-- The effect of a sequence of events, first event first. -/
def runEvents (events : List Event) (a : App) : App :=
  events.foldl step a

/-- The run `run` has been torn down: its cleanup has called
`renderer.dispose()`. -/
def tornDown (run : Nat) (a : App) : Prop :=
  Resource.renderer run ∈ a.disposed

/-- The frame loops that are active: the runs whose `animate` waits for the
next frame. -/
def activeLoops (a : App) : Nat :=
  a.frameQueue.length

/-- What the frame loops of a state look like when none was ever stopped: all
the runs started so far wait in the frame queue, the live run is the last one
started, and every earlier run is torn down. -/
def loopsLeak (a : App) : Prop :=
  a.frameQueue = List.range a.runs ∧ a.current + 1 = a.runs
    ∧ ∀ v, v < a.current → tornDown v a

/-! ## Lighting rig -/

theorem lightsOf_append (xs ys : List Object3D) :
    lightsOf (xs ++ ys) = lightsOf xs ++ lightsOf ys := by
  simp [lightsOf, List.filterMap_append]

theorem lightsOf_nonLights (s : List Object3D) : lightsOf (nonLights s) = [] := by
  induction s with
  | nil => rfl
  | cons c rest ih =>
    cases c <;> simpa [nonLights, lightsOf, Object3D.isLight] using ih

theorem nonLights_append (xs ys : List Object3D) :
    nonLights (xs ++ ys) = nonLights xs ++ nonLights ys := by
  simp [nonLights]

theorem nonLights_idem (s : List Object3D) : nonLights (nonLights s) = nonLights s := by
  simp [nonLights]

/-- The result of `setupLighting`, case by case: the children that are not
lights, followed by the lights of the matching case. -/
theorem setupLighting_eq (t : String) (s : List Object3D) :
    setupLighting t s = nonLights s ++
      (if t = "studio" then [.light ambientLight, .light mainLight, .light fillLight]
       else if t = "outdoor" then [.light sunLight, .light skyLight]
       else if t = "dramatic" then [.light spotLight, .light rimLight]
       else []) := by
  unfold setupLighting
  split_ifs <;> simp [sceneAdd, nonLights]

/-- C1: for every list of scene children `s`, whatever lights it holds, the
lights attached after `setupLighting` are exactly the lights of the target
scene, each once and in the order they are added: for `studio` an ambient light
of intensity 0.5 and directional lights of intensity 1 and 0.3, for `outdoor` a
directional light of intensity 1.5 and a hemisphere light, for `dramatic` a
spot light of angle π/6 and a directional light of intensity 0.5.  The children
after the call are the children of `s` that are not lights followed by these
new lights, so no light of `s` remains, and the result does not depend on the
lights `s` held. -/
theorem setupLighting_lights_exact (s : List Object3D) :
    (lightsOf (setupLighting "studio" s) =
        [⟨.ambient, 0xffffff, none, 1/2, none, none⟩,
         ⟨.directional, 0xffffff, none, 1, some (1, 1, 1), none⟩,
         ⟨.directional, 0xffffff, none, 3/10, some (-1, -1, 1), none⟩]
      ∧ setupLighting "studio" s = nonLights s ++
        [.light ⟨.ambient, 0xffffff, none, 1/2, none, none⟩,
         .light ⟨.directional, 0xffffff, none, 1, some (1, 1, 1), none⟩,
         .light ⟨.directional, 0xffffff, none, 3/10, some (-1, -1, 1), none⟩]
      ∧ setupLighting "studio" s = setupLighting "studio" (nonLights s))
    ∧ (lightsOf (setupLighting "outdoor" s) =
        [⟨.directional, 0xffffff, none, 3/2, some (5, 5, 5), none⟩,
         ⟨.hemisphere, 0x87ceeb, some 0x404040, 1, none, none⟩]
      ∧ setupLighting "outdoor" s = nonLights s ++
        [.light ⟨.directional, 0xffffff, none, 3/2, some (5, 5, 5), none⟩,
         .light ⟨.hemisphere, 0x87ceeb, some 0x404040, 1, none, none⟩]
      ∧ setupLighting "outdoor" s = setupLighting "outdoor" (nonLights s))
    ∧ (lightsOf (setupLighting "dramatic" s) =
        [⟨.spot, 0xffffff, none, 2, some (3, 3, 3), some (1/6)⟩,
         ⟨.directional, 0x404040, none, 1/2, some (-2, -2, -2), none⟩]
      ∧ setupLighting "dramatic" s = nonLights s ++
        [.light ⟨.spot, 0xffffff, none, 2, some (3, 3, 3), some (1/6)⟩,
         .light ⟨.directional, 0x404040, none, 1/2, some (-2, -2, -2), none⟩]
      ∧ setupLighting "dramatic" s = setupLighting "dramatic" (nonLights s))
    ∧ lightsOf (nonLights s) = [] := by
  refine ⟨⟨?_, ?_, ?_⟩, ⟨?_, ?_, ?_⟩, ⟨?_, ?_, ?_⟩, lightsOf_nonLights s⟩
  · rw [setupLighting_eq, lightsOf_append, lightsOf_nonLights]
    simp [lightsOf, ambientLight, mainLight, fillLight]
  · rw [setupLighting_eq]
    simp [ambientLight, mainLight, fillLight]
  · rw [setupLighting_eq, setupLighting_eq "studio" (nonLights s), nonLights_idem]
  · rw [setupLighting_eq, lightsOf_append, lightsOf_nonLights]
    simp [lightsOf, sunLight, skyLight]
  · rw [setupLighting_eq]
    simp [sunLight, skyLight]
  · rw [setupLighting_eq, setupLighting_eq "outdoor" (nonLights s), nonLights_idem]
  · rw [setupLighting_eq, lightsOf_append, lightsOf_nonLights]
    simp [lightsOf, spotLight, rimLight]
  · rw [setupLighting_eq]
    simp [spotLight, rimLight]
  · rw [setupLighting_eq, setupLighting_eq "dramatic" (nonLights s), nonLights_idem]

/-- C7: `setupLighting` is idempotent: for every list of scene children `s` and
every scene type `t`, applying `setupLighting t` to the result of
`setupLighting t` on `s` gives the same list of children (the same children
that are not lights and the same lights, in the same order) as applying it
once. -/
theorem setupLighting_idempotent (t : String) (s : List Object3D) :
    setupLighting t (setupLighting t s) = setupLighting t s := by
  rw [setupLighting_eq t (setupLighting t s), setupLighting_eq t s, nonLights_append,
    nonLights_idem]
  congr 1
  split_ifs <;> simp [nonLights, Object3D.isLight]

/-- C10: `setupLighting` changes only lights: for every list of scene children
and every scene type, also one outside the three scenes, the children that are
not lights are the same, in the same order, after the call as before it; a mesh
among the children stays among them; and for a scene type outside `studio`,
`outdoor` and `dramatic` no light is left in the scene. -/
theorem setupLighting_frame (t : String) (s : List Object3D) :
    nonLights (setupLighting t s) = nonLights s
    ∧ (∀ id, Object3D.mesh id ∈ s → Object3D.mesh id ∈ setupLighting t s)
    ∧ (t ≠ "studio" ∧ t ≠ "outdoor" ∧ t ≠ "dramatic" →
        lightsOf (setupLighting t s) = [] ∧ setupLighting t s = nonLights s) := by
  refine ⟨?_, ?_, ?_⟩
  · rw [setupLighting_eq, nonLights_append, nonLights_idem]
    split_ifs <;> simp [nonLights, Object3D.isLight]
  · intro id h
    rw [setupLighting_eq]
    apply List.mem_append_left
    simp [nonLights, h, Object3D.isLight]
  · rintro ⟨h1, h2, h3⟩
    rw [setupLighting_eq]
    simp [h1, h2, h3, lightsOf_nonLights]

/-- A scene holding a mesh, a node that is no light and lights of two former
rigs, switched to the unknown scene type `night`: the mesh and the other node
stay, no light is left. -/
theorem setupLighting_frame_witness :
    nonLights (setupLighting "night"
        [.mesh 0, .light spotLight, .other 7, .light skyLight]) = [.mesh 0, .other 7]
    ∧ lightsOf (setupLighting "night"
        [.mesh 0, .light spotLight, .other 7, .light skyLight]) = [] := by
  have h := setupLighting_frame "night" [.mesh 0, .light spotLight, .other 7, .light skyLight]
  refine ⟨?_, (h.2.2 (by decide)).1⟩
  rw [h.1]
  simp [nonLights, Object3D.isLight]

/-! ## Material -/

/-- C2: for every configuration the derived material exists and has the colour,
metalness, roughness and opacity of the configuration unchanged, the transparency
flag set (whatever the opacity, also 1), clearcoat 1.0 and clearcoat roughness
0.1 when the finish is `glossy`, clearcoat 0 and clearcoat roughness 0.5 for any
other finish; the construction alone gives the same values.  For the
configuration with colour `blue`, metalness 0.5, roughness 0.2, finish `glossy`
and opacity 1 the material has clearcoat 1.0, clearcoat roughness 0.1, opacity
1.0 and the transparency flag set. -/
theorem deriveMaterial_fields (cfg : Config) :
    (∃ m, deriveMaterial cfg = some m
      ∧ m.color = cfg.selectedColor ∧ m.metalness = cfg.metalness
      ∧ m.roughness = cfg.roughness ∧ m.opacity = cfg.opacity
      ∧ m.transparent = true
      ∧ (cfg.finish = "glossy" → m.clearcoat = 1 ∧ m.clearcoatRoughness = 1/10)
      ∧ (cfg.finish ≠ "glossy" → m.clearcoat = 0 ∧ m.clearcoatRoughness = 1/2)
      ∧ m = { newMaterial cfg with needsUpdate := true })
    ∧ (∃ m, deriveMaterial { Config.initial with
              selectedColor := "blue", metalness := 1/2, roughness := 1/5,
              finish := "glossy", opacity := 1 } = some m
      ∧ m.clearcoat = 1 ∧ m.clearcoatRoughness = 1/10 ∧ m.opacity = 1
      ∧ m.transparent = true ∧ m.color = "blue") := by
  refine ⟨⟨_, rfl, rfl, rfl, rfl, rfl, rfl, ?_, ?_, rfl⟩, ⟨_, rfl, ?_, ?_, ?_, rfl, rfl⟩⟩
  · intro h
    simp [newMaterial, h]
  · intro h
    simp [newMaterial, h]
  · simp [newMaterial, Config.initial]
  · simp [newMaterial, Config.initial]
  · simp [newMaterial, Config.initial]

/-- C5: for every configuration, taken once with finish `glossy` and once with
finish `matte`, both materials exist, the first has clearcoat 1.0 and clearcoat
roughness 0.1, the second clearcoat 0.0 and clearcoat roughness 0.5, and every
other field (colour, metalness, roughness, opacity, transparency flag, side, the
four texture bindings, the update flag) is the same in both. -/
theorem deriveMaterial_finish_frame (cfg : Config) :
    ∃ g m, deriveMaterial { cfg with finish := "glossy" } = some g
      ∧ deriveMaterial { cfg with finish := "matte" } = some m
      ∧ g.clearcoat = 1 ∧ g.clearcoatRoughness = 1/10
      ∧ m.clearcoat = 0 ∧ m.clearcoatRoughness = 1/2
      ∧ g.color = m.color ∧ g.metalness = m.metalness ∧ g.roughness = m.roughness
      ∧ g.opacity = m.opacity ∧ g.transparent = m.transparent ∧ g.side = m.side
      ∧ g.map = m.map ∧ g.normalMap = m.normalMap ∧ g.roughnessMap = m.roughnessMap
      ∧ g.metalnessMap = m.metalnessMap ∧ g.needsUpdate = m.needsUpdate
      ∧ { g with clearcoat := 0, clearcoatRoughness := 1/2 } = m := by
  refine ⟨_, _, rfl, rfl, ?_, ?_, ?_, ?_, rfl, rfl, rfl, rfl, rfl, rfl, rfl, rfl, rfl, rfl,
    rfl, ?_⟩ <;> simp [newMaterial]

/-! ## Card outline -/

theorem lerp_bounds (lo hi a b t : ℚ) (ha : lo ≤ a ∧ a ≤ hi) (hb : lo ≤ b ∧ b ≤ hi)
    (ht0 : 0 ≤ t) (ht1 : t ≤ 1) : lo ≤ a + t * (b - a) ∧ a + t * (b - a) ≤ hi := by
  have e1 : 0 ≤ 1 - t := by linarith
  have key : a + t * (b - a) = (1 - t) * a + t * b := by ring
  rw [key]
  constructor
  · nlinarith [mul_nonneg e1 (sub_nonneg.2 ha.1), mul_nonneg ht0 (sub_nonneg.2 hb.1)]
  · nlinarith [mul_nonneg e1 (sub_nonneg.2 ha.2), mul_nonneg ht0 (sub_nonneg.2 hb.2)]

theorem bezier_bounds (lo hi a b c t : ℚ) (ha : lo ≤ a ∧ a ≤ hi) (hb : lo ≤ b ∧ b ≤ hi)
    (hc : lo ≤ c ∧ c ≤ hi) (ht0 : 0 ≤ t) (ht1 : t ≤ 1) :
    lo ≤ (1 - t) ^ 2 * a + 2 * (1 - t) * t * b + t ^ 2 * c
    ∧ (1 - t) ^ 2 * a + 2 * (1 - t) * t * b + t ^ 2 * c ≤ hi := by
  have e1 : 0 ≤ 1 - t := by linarith
  have w1 : 0 ≤ (1 - t) ^ 2 := by positivity
  have w2 : 0 ≤ 2 * (1 - t) * t := by positivity
  have w3 : 0 ≤ t ^ 2 := by positivity
  have sum : (1 - t) ^ 2 + 2 * (1 - t) * t + t ^ 2 = 1 := by ring
  constructor
  · nlinarith [mul_nonneg w1 (sub_nonneg.2 ha.1), mul_nonneg w2 (sub_nonneg.2 hb.1),
      mul_nonneg w3 (sub_nonneg.2 hc.1)]
  · nlinarith [mul_nonneg w1 (sub_nonneg.2 ha.2), mul_nonneg w2 (sub_nonneg.2 hb.2),
      mul_nonneg w3 (sub_nonneg.2 hc.2)]

/-- A segment whose end points and control point lie in a box stays in the box. -/
theorem Curve.getPoint_inBox (x0 x1 y0 y1 : ℚ) (c : Curve)
    (hc : ∀ q ∈ c.points, inBox x0 x1 y0 y1 q) (t : ℚ) (ht0 : 0 ≤ t) (ht1 : t ≤ 1) :
    inBox x0 x1 y0 y1 (c.getPoint t) := by
  cases c with
  | line v1 v2 =>
    have a := hc v1 (by simp [Curve.points])
    have b := hc v2 (by simp [Curve.points])
    have hx := lerp_bounds x0 x1 v1.1 v2.1 t ⟨a.1, a.2.1⟩ ⟨b.1, b.2.1⟩ ht0 ht1
    have hy := lerp_bounds y0 y1 v1.2 v2.2 t ⟨a.2.2.1, a.2.2.2⟩ ⟨b.2.2.1, b.2.2.2⟩ ht0 ht1
    exact ⟨hx.1, hx.2, hy.1, hy.2⟩
  | quadratic v0 v1 v2 =>
    have a := hc v0 (by simp [Curve.points])
    have b := hc v1 (by simp [Curve.points])
    have d := hc v2 (by simp [Curve.points])
    have hx := bezier_bounds x0 x1 v0.1 v1.1 v2.1 t ⟨a.1, a.2.1⟩ ⟨b.1, b.2.1⟩ ⟨d.1, d.2.1⟩
      ht0 ht1
    have hy := bezier_bounds y0 y1 v0.2 v1.2 v2.2 t ⟨a.2.2.1, a.2.2.2⟩ ⟨b.2.2.1, b.2.2.2⟩
      ⟨d.2.2.1, d.2.2.2⟩ ht0 ht1
    exact ⟨hx.1, hx.2, hy.1, hy.2⟩

theorem cardShape_curves (w h r : ℚ) :
    (cardShape w h r).curves =
      [.line (-w / 2 + r, -h / 2) (-w / 2 + w - r, -h / 2),
       .quadratic (-w / 2 + w - r, -h / 2) (-w / 2 + w, -h / 2) (-w / 2 + w, -h / 2 + r),
       .line (-w / 2 + w, -h / 2 + r) (-w / 2 + w, -h / 2 + h - r),
       .quadratic (-w / 2 + w, -h / 2 + h - r) (-w / 2 + w, -h / 2 + h)
         (-w / 2 + w - r, -h / 2 + h),
       .line (-w / 2 + w - r, -h / 2 + h) (-w / 2 + r, -h / 2 + h),
       .quadratic (-w / 2 + r, -h / 2 + h) (-w / 2, -h / 2 + h) (-w / 2, -h / 2 + h - r),
       .line (-w / 2, -h / 2 + h - r) (-w / 2, -h / 2 + r),
       .quadratic (-w / 2, -h / 2 + r) (-w / 2, -h / 2) (-w / 2 + r, -h / 2)] := by
  simp [cardShape, Path.empty, Path.moveTo, Path.lineTo, Path.quadraticCurveTo]

theorem sq_one (r t : ℚ) (hr : 0 < r) (ht0 : 0 ≤ t) (ht1 : t ≤ 1) (e : r * t ^ 2 = r) :
    t = 1 := by
  have h : r * (t ^ 2 - 1) = 0 := by linarith
  rcases mul_eq_zero.1 h with h | h
  · exact absurd h hr.ne'
  · nlinarith

theorem sq_zero (r t : ℚ) (hr : 0 < r) (e : r * t ^ 2 = 0) : t = 0 := by
  rcases mul_eq_zero.1 e with h | h
  · exact absurd h hr.ne'
  · exact pow_eq_zero_iff (by norm_num) |>.1 h

theorem csq_one (r t : ℚ) (hr : 0 < r) (ht0 : 0 ≤ t) (ht1 : t ≤ 1) (e : r * (1 - t) ^ 2 = r) :
    t = 0 := by
  have := sq_one r (1 - t) hr (by linarith) (by linarith) e
  linarith

theorem csq_zero (r t : ℚ) (hr : 0 < r) (e : r * (1 - t) ^ 2 = 0) : t = 1 := by
  have := sq_zero r (1 - t) hr e
  linarith

theorem sq_inj (r t u : ℚ) (hr : 0 < r) (ht0 : 0 ≤ t) (hu0 : 0 ≤ u)
    (e : r * t ^ 2 = r * u ^ 2) : t = u := by
  have h : t ^ 2 = u ^ 2 := mul_left_cancel₀ hr.ne' e
  nlinarith [sq_nonneg (t - u), sq_nonneg (t + u)]

theorem lin_one (t s : ℚ) (e : t * s = s) : t = 1 ∨ s = 0 := by
  have h : (t - 1) * s = 0 := by linarith
  rcases mul_eq_zero.1 h with h | h
  · left; linarith
  · right; exact h

theorem lin_zero (t s : ℚ) (e : t * s = 0) : t = 0 ∨ s = 0 := mul_eq_zero.1 e

theorem lin_inj (t u s : ℚ) (e : t * s = u * s) : t = u ∨ s = 0 := by
  have h : (t - u) * s = 0 := by linarith
  rcases mul_eq_zero.1 h with h | h
  · left; linarith
  · right; exact h

theorem sq_bound (r t : ℚ) (hr : 0 < r) (ht0 : 0 ≤ t) (ht1 : t ≤ 1) : r * t ^ 2 ≤ r := by
  have h : t ^ 2 ≤ 1 := by nlinarith
  exact mul_le_of_le_one_right hr.le h

theorem lin_bound (t s : ℚ) (hs : 0 ≤ s) (ht1 : t ≤ 1) : t * s ≤ s :=
  mul_le_of_le_one_left hs ht1

set_option maxHeartbeats 4000000 in
/-- Where two positions of the card outline can give the same point, segment
pair by segment pair; `E` holds of the four edges when they have length zero. -/
theorem cardShape_meet (w h r : ℚ) (hr : 0 < r)
    (h1 : r ≤ w / 2) (h2 : r ≤ h / 2) (E : ℚ × ℚ → Prop)
    (d0 : w = 2 * r → E (-w / 2 + r, -h / 2)) (d2 : h = 2 * r → E (w / 2, -h / 2 + r))
    (d4 : w = 2 * r → E (w / 2 - r, h / 2)) (d6 : h = 2 * r → E (-w / 2, h / 2 - r))
    (i j : Nat) (ci cj : Curve) (t u : ℚ) (hij : i ≤ j)
    (hi : (cardShape w h r).curves[i]? = some ci) (hj : (cardShape w h r).curves[j]? = some cj)
    (ht0 : 0 ≤ t) (ht1 : t ≤ 1) (hu0 : 0 ≤ u) (hu1 : u ≤ 1)
    (hP : ci.getPoint t = cj.getPoint u) :
    (i = j ∧ t = u) ∨ (j = i + 1 ∧ t = 1 ∧ u = 0) ∨ (i = 0 ∧ j = 7 ∧ t = 0 ∧ u = 1)
      ∨ E (ci.getPoint t) := by
  rw [cardShape_curves] at hi hj
  have hi8 : i < 8 := by
    by_contra hc
    rw [List.getElem?_eq_none (by simpa using hc)] at hi
    exact absurd hi (by simp)
  have hj8 : j < 8 := by
    by_contra hc
    rw [List.getElem?_eq_none (by simpa using hc)] at hj
    exact absurd hj (by simp)
  have s0 : 0 ≤ w - 2 * r := by linarith
  have v0 : 0 ≤ h - 2 * r := by linarith
  have ta0 : 0 ≤ r * t ^ 2 := by positivity
  have ta1 : r * t ^ 2 ≤ r := sq_bound r t hr ht0 ht1
  have tb0 : 0 ≤ r * (1 - t) ^ 2 := by positivity
  have tb1 : r * (1 - t) ^ 2 ≤ r := sq_bound r (1 - t) hr (by linarith) (by linarith)
  have ua0 : 0 ≤ r * u ^ 2 := by positivity
  have ua1 : r * u ^ 2 ≤ r := sq_bound r u hr hu0 hu1
  have ub0 : 0 ≤ r * (1 - u) ^ 2 := by positivity
  have ub1 : r * (1 - u) ^ 2 ≤ r := sq_bound r (1 - u) hr (by linarith) (by linarith)
  have ts0 : 0 ≤ t * (w - 2 * r) := mul_nonneg ht0 s0
  have ts1 : t * (w - 2 * r) ≤ w - 2 * r := lin_bound _ _ s0 ht1
  have tv0 : 0 ≤ t * (h - 2 * r) := mul_nonneg ht0 v0
  have tv1 : t * (h - 2 * r) ≤ h - 2 * r := lin_bound _ _ v0 ht1
  have us0 : 0 ≤ u * (w - 2 * r) := mul_nonneg hu0 s0
  have us1 : u * (w - 2 * r) ≤ w - 2 * r := lin_bound _ _ s0 hu1
  have uv0 : 0 ≤ u * (h - 2 * r) := mul_nonneg hu0 v0
  have uv1 : u * (h - 2 * r) ≤ h - 2 * r := lin_bound _ _ v0 hu1
  interval_cases i <;> interval_cases j <;> try omega
  all_goals (simp at hi hj; subst hi hj; simp only [Curve.getPoint, Prod.mk.injEq] at hP;
             obtain ⟨hx, hy⟩ := hP)
  -- segments 0 and 0
  · rcases lin_inj t u (w - 2 * r) (by linarith) with e | e
    · left; exact ⟨rfl, e⟩
    · have hs : w = 2 * r := by linarith
      right; right; right
      convert d0 hs using 1
      simp only [Curve.getPoint, Prod.mk.injEq, hs]
      constructor <;> ring
  -- segments 0 and 1
  · have hu : u = 0 := sq_zero r u hr (by linarith)
    subst hu
    rcases lin_one t (w - 2 * r) (by linarith) with e | e
    · right; left; exact ⟨rfl, e, rfl⟩
    · have hs : w = 2 * r := by linarith
      right; right; right
      convert d0 hs using 1
      simp only [Curve.getPoint, Prod.mk.injEq, hs]
      constructor <;> ring
  -- segments 0 and 2
  · exfalso; linarith
  -- segments 0 and 3
  · exfalso; linarith
  -- segments 0 and 4
  · exfalso; linarith
  -- segments 0 and 5
  · exfalso; linarith
  -- segments 0 and 6
  · exfalso; linarith
  -- segments 0 and 7
  · have hu : u = 1 := csq_zero r u hr (by linarith)
    subst hu
    rcases lin_zero t (w - 2 * r) (by linarith) with e | e
    · right; right; left; exact ⟨rfl, rfl, e, rfl⟩
    · have hs : w = 2 * r := by linarith
      right; right; right
      convert d0 hs using 1
      simp only [Curve.getPoint, Prod.mk.injEq, hs]
      constructor <;> ring
  -- segments 1 and 1
  · left; exact ⟨rfl, sq_inj r t u hr ht0 hu0 (by linarith)⟩
  -- segments 1 and 2
  · have ht : t = 1 := csq_zero r t hr (by linarith)
    subst ht
    rcases lin_zero u (h - 2 * r) (by linarith) with e | e
    · right; left; exact ⟨rfl, rfl, e⟩
    · have hv : h = 2 * r := by linarith
      right; right; right
      convert d2 hv using 1
      simp only [Curve.getPoint, Prod.mk.injEq, hv]
      constructor <;> ring
  -- segments 1 and 3
  · have ht : t = 1 := sq_one r t hr ht0 ht1 (by linarith)
    subst ht
    have hv : h = 2 * r := by linarith
    right; right; right
    convert d2 hv using 1
    simp only [Curve.getPoint, Prod.mk.injEq, hv]
    constructor <;> ring
  -- segments 1 and 4
  · exfalso; linarith
  -- segments 1 and 5
  · exfalso
    have e1 : t = 1 := sq_one r t hr ht0 ht1 (by linarith)
    have e2 : t = 0 := csq_one r t hr ht0 ht1 (by linarith)
    linarith
  -- segments 1 and 6
  · exfalso; linarith
  -- segments 1 and 7
  · have ht : t = 0 := csq_one r t hr ht0 ht1 (by linarith)
    subst ht
    have hs : w = 2 * r := by linarith
    right; right; right
    convert d0 hs using 1
    simp only [Curve.getPoint, Prod.mk.injEq, hs]
    constructor <;> ring
  -- segments 2 and 2
  · rcases lin_inj t u (h - 2 * r) (by linarith) with e | e
    · left; exact ⟨rfl, e⟩
    · have hv : h = 2 * r := by linarith
      right; right; right
      convert d2 hv using 1
      simp only [Curve.getPoint, Prod.mk.injEq, hv]
      constructor <;> ring
  -- segments 2 and 3
  · have hu : u = 0 := sq_zero r u hr (by linarith)
    subst hu
    rcases lin_one t (h - 2 * r) (by linarith) with e | e
    · right; left; exact ⟨rfl, e, rfl⟩
    · have hv : h = 2 * r := by linarith
      right; right; right
      convert d2 hv using 1
      simp only [Curve.getPoint, Prod.mk.injEq, hv]
      constructor <;> ring
  -- segments 2 and 4
  · exfalso; linarith
  -- segments 2 and 5
  · exfalso; linarith
  -- segments 2 and 6
  · exfalso; linarith
  -- segments 2 and 7
  · exfalso; linarith
  -- segments 3 and 3
  · left; exact ⟨rfl, sq_inj r t u hr ht0 hu0 (by linarith)⟩
  -- segments 3 and 4
  · have ht : t = 1 := csq_zero r t hr (by linarith)
    subst ht
    rcases lin_zero u (w - 2 * r) (by linarith) with e | e
    · right; left; exact ⟨rfl, rfl, e⟩
    · have hs : w = 2 * r := by linarith
      right; right; right
      convert d4 hs using 1
      simp only [Curve.getPoint, Prod.mk.injEq, hs]
      constructor <;> ring
  -- segments 3 and 5
  · have ht : t = 1 := sq_one r t hr ht0 ht1 (by linarith)
    subst ht
    have hs : w = 2 * r := by linarith
    right; right; right
    convert d4 hs using 1
    simp only [Curve.getPoint, Prod.mk.injEq, hs]
    constructor <;> ring
  -- segments 3 and 6
  · exfalso; linarith
  -- segments 3 and 7
  · exfalso
    have e1 : t = 1 := sq_one r t hr ht0 ht1 (by linarith)
    have e2 : t = 0 := csq_one r t hr ht0 ht1 (by linarith)
    linarith
  -- segments 4 and 4
  · rcases lin_inj t u (w - 2 * r) (by linarith) with e | e
    · left; exact ⟨rfl, e⟩
    · have hs : w = 2 * r := by linarith
      right; right; right
      convert d4 hs using 1
      simp only [Curve.getPoint, Prod.mk.injEq, hs]
      constructor <;> ring
  -- segments 4 and 5
  · have hu : u = 0 := sq_zero r u hr (by linarith)
    subst hu
    rcases lin_one t (w - 2 * r) (by linarith) with e | e
    · right; left; exact ⟨rfl, e, rfl⟩
    · have hs : w = 2 * r := by linarith
      right; right; right
      convert d4 hs using 1
      simp only [Curve.getPoint, Prod.mk.injEq, hs]
      constructor <;> ring
  -- segments 4 and 6
  · exfalso; linarith
  -- segments 4 and 7
  · exfalso; linarith
  -- segments 5 and 5
  · left; exact ⟨rfl, sq_inj r t u hr ht0 hu0 (by linarith)⟩
  -- segments 5 and 6
  · have ht : t = 1 := csq_zero r t hr (by linarith)
    subst ht
    rcases lin_zero u (h - 2 * r) (by linarith) with e | e
    · right; left; exact ⟨rfl, rfl, e⟩
    · have hv : h = 2 * r := by linarith
      right; right; right
      convert d6 hv using 1
      simp only [Curve.getPoint, Prod.mk.injEq, hv]
      constructor <;> ring
  -- segments 5 and 7
  · have ht : t = 1 := sq_one r t hr ht0 ht1 (by linarith)
    subst ht
    have hv : h = 2 * r := by linarith
    right; right; right
    convert d6 hv using 1
    simp only [Curve.getPoint, Prod.mk.injEq, hv]
    constructor <;> ring
  -- segments 6 and 6
  · rcases lin_inj t u (h - 2 * r) (by linarith) with e | e
    · left; exact ⟨rfl, e⟩
    · have hv : h = 2 * r := by linarith
      right; right; right
      convert d6 hv using 1
      simp only [Curve.getPoint, Prod.mk.injEq, hv]
      constructor <;> ring
  -- segments 6 and 7
  · have hu : u = 0 := sq_zero r u hr (by linarith)
    subst hu
    rcases lin_one t (h - 2 * r) (by linarith) with e | e
    · right; left; exact ⟨rfl, e, rfl⟩
    · have hv : h = 2 * r := by linarith
      right; right; right
      convert d6 hv using 1
      simp only [Curve.getPoint, Prod.mk.injEq, hv]
      constructor <;> ring
  -- segments 7 and 7
  · left; exact ⟨rfl, sq_inj r t u hr ht0 hu0 (by linarith)⟩

/-- The card outline is simple for every corner radius up to half the shorter
side. -/
theorem cardShape_simple (w h r : ℚ) (hr : 0 < r) (h1 : r ≤ w / 2) (h2 : r ≤ h / 2) :
    simpleOutline (cardShape w h r).curves := by
  intro i j ci cj t u hij hi hj ht0 ht1 hu0 hu1 hP
  have key := cardShape_meet w h r hr h1 h2
    (fun P => ∃ (k : Nat) (v : ℚ × ℚ),
      (cardShape w h r).curves[k]? = some (Curve.line v v) ∧ P = v)
    (fun hs => ⟨0, _, by
      rw [cardShape_curves]
      show some (Curve.line (-w / 2 + r, -h / 2) (-w / 2 + w - r, -h / 2)) = _
      have e : -w / 2 + w - r = -w / 2 + r := by rw [hs]; ring
      rw [e], rfl⟩)
    (fun hv => ⟨2, _, by
      rw [cardShape_curves]
      show some (Curve.line (-w / 2 + w, -h / 2 + r) (-w / 2 + w, -h / 2 + h - r)) = _
      have e1 : -w / 2 + w = w / 2 := by ring
      have e2 : -h / 2 + h - r = -h / 2 + r := by rw [hv]; ring
      rw [e1, e2], rfl⟩)
    (fun hs => ⟨4, _, by
      rw [cardShape_curves]
      show some (Curve.line (-w / 2 + w - r, -h / 2 + h) (-w / 2 + r, -h / 2 + h)) = _
      have e1 : -w / 2 + w - r = w / 2 - r := by ring
      have e2 : -h / 2 + h = h / 2 := by ring
      have e3 : -w / 2 + r = w / 2 - r := by rw [hs]; ring
      rw [e1, e2, e3], rfl⟩)
    (fun hv => ⟨6, _, by
      rw [cardShape_curves]
      show some (Curve.line (-w / 2, -h / 2 + h - r) (-w / 2, -h / 2 + r)) = _
      have e1 : -h / 2 + h - r = h / 2 - r := by ring
      have e2 : -h / 2 + r = h / 2 - r := by rw [hv]; ring
      rw [e1, e2], rfl⟩)
    i j ci cj t u hij hi hj ht0 ht1 hu0 hu1 hP
  rcases key with k | k | ⟨k1, k2, k3⟩ | k
  · exact Or.inl k
  · exact Or.inr (Or.inl k)
  · refine Or.inr (Or.inr (Or.inl ⟨k1, ?_, k3⟩))
    rw [cardShape_curves, k2]; rfl
  · exact Or.inr (Or.inr (Or.inr k))

/-- An edge of the card outline has length zero only when the corner radius is
half the width or half the height. -/
theorem cardShape_zero_edge (w h r : ℚ) (k : Nat) (v : ℚ × ℚ)
    (hk : (cardShape w h r).curves[k]? = some (Curve.line v v)) : r = w / 2 ∨ r = h / 2 := by
  rw [cardShape_curves] at hk
  have hk8 : k < 8 := by
    by_contra hc
    rw [List.getElem?_eq_none (by simpa using hc)] at hk
    exact absurd hk (by simp)
  interval_cases k <;> simp [Prod.ext_iff] at hk
  · left; obtain ⟨e1, e2⟩ := hk; linarith [e1.1, e2]
  · right; obtain ⟨e1, e2⟩ := hk; linarith [e1.2, e2.2]
  · left; obtain ⟨e1, e2⟩ := hk; linarith [e1.1, e2.1]
  · right; obtain ⟨e1, e2⟩ := hk; linarith [e1.2, e2.2]

/-- C6: for positive width and height and every corner radius `r` with
`0 < r ≤ min(width, height)/2`, over exact rationals, the outline built by the
shape commands is a closed rounded rectangle that does not meet itself.  It has
eight segments, each starting where the one before ends, the first starting and
the last ending at the `moveTo` point `(x + r, y)`; from start to end the
segments move by `(w - 2r, 0)`, `(r, r)`, `(0, h - 2r)`, `(-r, r)`,
`(-(w - 2r), 0)`, `(-r, -r)`, `(0, -(h - 2r))`, `(r, -r)` with `w - 2r ≥ 0` and
`h - 2r ≥ 0`, so every straight edge has non-negative length in its direction
of travel; the segments are alternately lines and quadratic curves, the control
point of each curve being the corner of the rectangle; every end point and
control point, and every point of every segment, lies in
`[-w/2, w/2] × [-h/2, h/2]`; two positions of the outline give the same point
only at a joint of consecutive segments or on an edge of length zero, and an
edge has length zero only when `r` is half the width or half the height. -/
theorem cardShape_outline (w h r : ℚ) (hw : 0 < w) (hh : 0 < h) (hr : 0 < r)
    (hrad : r ≤ min w h / 2) :
    (cardShape w h r).curves.length = 8
    ∧ connected (cardShape w h r).curves
    ∧ (cardShape w h r).curves.head?.map Curve.startPoint = some (-w / 2 + r, -h / 2)
    ∧ (cardShape w h r).curves.getLast?.map Curve.endPoint = some (-w / 2 + r, -h / 2)
    ∧ (cardShape w h r).currentPoint = (-w / 2 + r, -h / 2)
    ∧ (cardShape w h r).curves.map
          (fun c => (c.endPoint.1 - c.startPoint.1, c.endPoint.2 - c.startPoint.2)) =
        [(w - 2 * r, 0), (r, r), (0, h - 2 * r), (-r, r),
         (-(w - 2 * r), 0), (-r, -r), (0, -(h - 2 * r)), (r, -r)]
    ∧ 0 ≤ w - 2 * r ∧ 0 ≤ h - 2 * r
    ∧ (cardShape w h r).curves.map Curve.controlPoint =
        [none, some (w / 2, -h / 2), none, some (w / 2, h / 2),
         none, some (-w / 2, h / 2), none, some (-w / 2, -h / 2)]
    ∧ (∀ c ∈ (cardShape w h r).curves, ∀ q ∈ c.points,
        inBox (-w / 2) (w / 2) (-h / 2) (h / 2) q)
    ∧ (∀ c ∈ (cardShape w h r).curves, ∀ t : ℚ, 0 ≤ t → t ≤ 1 →
        inBox (-w / 2) (w / 2) (-h / 2) (h / 2) (c.getPoint t))
    ∧ simpleOutline (cardShape w h r).curves
    ∧ (∀ (k : Nat) (v : ℚ × ℚ), (cardShape w h r).curves[k]? = some (Curve.line v v) →
        r = w / 2 ∨ r = h / 2) := by
  have h1 : r ≤ w / 2 := by
    have := min_le_left w h
    linarith
  have h2 : r ≤ h / 2 := by
    have := min_le_right w h
    linarith
  have hpts : ∀ c ∈ (cardShape w h r).curves, ∀ q ∈ c.points,
      inBox (-w / 2) (w / 2) (-h / 2) (h / 2) q := by
    rw [cardShape_curves]
    intro c hc q hq
    simp at hc
    rcases hc with rfl | rfl | rfl | rfl | rfl | rfl | rfl | rfl <;>
      simp [Curve.points] at hq <;>
      rcases hq with rfl | rfl | rfl <;> (simp only [inBox]; refine ⟨?_, ?_, ?_, ?_⟩ <;> linarith)
  refine ⟨?_, ?_, ?_, ?_, ?_, ?_, by linarith, by linarith, ?_, hpts, ?_,
    cardShape_simple w h r hr h1 h2, cardShape_zero_edge w h r⟩
  · rw [cardShape_curves]; rfl
  · rw [cardShape_curves]; simp [connected, Curve.startPoint, Curve.endPoint]
  · rw [cardShape_curves]; simp [Curve.startPoint]
  · rw [cardShape_curves]; simp [Curve.endPoint]
  · simp [cardShape, Path.empty, Path.moveTo, Path.lineTo, Path.quadraticCurveTo]
  · rw [cardShape_curves]
    simp [Curve.startPoint, Curve.endPoint]
    constructorm* _ ∧ _ <;> ring
  · rw [cardShape_curves]
    simp [Curve.controlPoint]
    constructorm* _ ∧ _ <;> ring
  · intro c hc t ht0 ht1
    exact Curve.getPoint_inBox _ _ _ _ c (hpts c hc) t ht0 ht1

/-- The card of the source, 85.6 by 53.98 with corner radius 3.48: the outline has
eight connected segments, closes at `(-39.32, -26.99)` and does not meet
itself. -/
theorem cardShape_outline_witness :
    (cardShape cardWidth cardHeight cornerRadius).curves.length = 8
    ∧ connected (cardShape cardWidth cardHeight cornerRadius).curves
    ∧ (cardShape cardWidth cardHeight cornerRadius).curves.getLast?.map Curve.endPoint =
        some (-983 / 25, -2699 / 100)
    ∧ simpleOutline (cardShape cardWidth cardHeight cornerRadius).curves := by
  have h := cardShape_outline cardWidth cardHeight cornerRadius
    (by norm_num [cardWidth]) (by norm_num [cardHeight]) (by norm_num [cornerRadius])
    (by norm_num [cardWidth, cardHeight, cornerRadius, min_def])
  refine ⟨h.1, h.2.1, ?_, h.2.2.2.2.2.2.2.2.2.2.2.1⟩
  rw [h.2.2.2.1]
  norm_num [cardWidth, cardHeight, cornerRadius]

/-! ## Component: state setters, uploads, disposal, frame loop -/

theorem setState_config (f : Config → Config) (a : App) :
    (setState f a).config = f a.config := by
  unfold setState
  by_cases h : f a.config = a.config
  · simp [h]
  · simp [h, runEffect, cleanup, animate]

theorem setState_pending (f : Config → Config) (a : App) :
    (setState f a).pending = a.pending := by
  unfold setState
  by_cases h : f a.config = a.config
  · simp [h]
  · simp [h, runEffect, cleanup, animate]

/-- After a state change the live material is the one derived from the new
state. -/
theorem setState_material (f : Config → Config) (a : App) (h : f a.config ≠ a.config) :
    (setState f a).material = deriveMaterial (f a.config) := by
  unfold setState
  simp [h, runEffect, cleanup, animate, deriveMaterial]

theorem onLoad_config (c : String) (t : Texture) (a : App) :
    (onLoad c t a).config =
      if c = "color" then { a.config with colorMap := some t }
      else if c = "normal" then { a.config with normalMap := some t }
      else if c = "roughness" then { a.config with roughnessMap := some t }
      else if c = "metalness" then { a.config with metalnessMap := some t }
      else a.config := by
  unfold onLoad
  split_ifs <;> simp [setState_config]

theorem onLoad_pending (c : String) (t : Texture) (a : App) :
    (onLoad c t a).pending = a.pending := by
  unfold onLoad
  split_ifs <;> simp [setState_pending]

theorem mem_channels (c : String) :
    c ∈ channels ↔ c = "color" ∨ c = "normal" ∨ c = "roughness" ∨ c = "metalness" := by
  simp [channels]

/-- The callback publishes its texture in its own channel. -/
theorem onLoad_channel_self (c : String) (t : Texture) (a : App) (hc : c ∈ channels) :
    (onLoad c t a).config.channel c = some t := by
  rw [mem_channels] at hc
  rcases hc with h | h | h | h <;> subst h <;> simp [onLoad_config, Config.channel]

/-- The callback leaves the other channels as they are. -/
theorem onLoad_channel_other (c c' : String) (t : Texture) (a : App) (hc : c ∈ channels)
    (hc' : c' ∈ channels) (hne : c' ≠ c) :
    (onLoad c t a).config.channel c' = a.config.channel c' := by
  rw [mem_channels] at hc hc'
  rcases hc with h | h | h | h <;> subst h <;>
    rcases hc' with h' | h' | h' | h' <;> subst h' <;>
    first | exact absurd rfl hne | simp [onLoad_config, Config.channel]

/-- The derived material binds each channel of the state in its slot. -/
theorem deriveMaterial_slot (cfg : Config) :
    ∃ m, deriveMaterial cfg = some m ∧ ∀ c ∈ channels, m.slot c = cfg.channel c := by
  refine ⟨_, rfl, ?_⟩
  intro c hc
  rw [mem_channels] at hc
  rcases hc with h | h | h | h <;> subst h <;> simp [Material.slot, Config.channel, newMaterial]

theorem onLoad_material (c : String) (t : Texture) (a : App) (hc : c ∈ channels)
    (hne : a.config.channel c ≠ some t) :
    (onLoad c t a).material = deriveMaterial (onLoad c t a).config := by
  rw [mem_channels] at hc
  have key : ∀ f : Config → Config, f a.config ≠ a.config →
      (setState f a).material = deriveMaterial (setState f a).config := by
    intro f hf
    rw [setState_material f a hf, setState_config]
  rcases hc with h | h | h | h <;> subst h <;> simp [Config.channel] at hne <;>
    simp only [onLoad, if_true, reduceCtorEq, if_false, String.reduceEq] <;>
    (apply key; intro hh; apply hne; rw [← hh])

theorem loaded_eq (a : App) (i : Nat) (u : Upload) (hu : a.pending[i]? = some u) :
    loaded i a = onLoad u.mapType u.texture { a with pending := a.pending.eraseIdx i } := by
  simp [loaded, hu]

theorem loaded_pending (a : App) (i : Nat) (u : Upload) (hu : a.pending[i]? = some u) :
    (loaded i a).pending = a.pending.eraseIdx i := by
  rw [loaded_eq a i u hu, onLoad_pending]

theorem loaded_channel (a : App) (i : Nat) (u : Upload) (hu : a.pending[i]? = some u)
    (hc : u.mapType ∈ channels) :
    (loaded i a).config.channel u.mapType = some u.texture := by
  rw [loaded_eq a i u hu]
  exact onLoad_channel_self _ _ _ hc

theorem setState_disposed (f : Config → Config) (a : App) (t : Texture)
    (h : Resource.texture t ∉ a.disposed) : Resource.texture t ∉ (setState f a).disposed := by
  unfold setState
  by_cases hc : f a.config = a.config
  · simpa [hc] using h
  · simpa [hc, runEffect, cleanup, animate] using h

theorem onLoad_disposed (c : String) (t' : Texture) (a : App) (t : Texture)
    (h : Resource.texture t ∉ a.disposed) : Resource.texture t ∉ (onLoad c t' a).disposed := by
  unfold onLoad
  split_ifs
  · exact setState_disposed _ a t h
  · exact setState_disposed _ a t h
  · exact setState_disposed _ a t h
  · exact setState_disposed _ a t h
  · exact h

/-- A frame calls every waiting `animate` once: each renders, and each is back
in the queue. -/
theorem frame_eq (a : App) : frame a = { a with rendered := a.rendered ++ a.frameQueue } := by
  have key : ∀ (q : List Nat) (b : App),
      q.foldl (fun a run => animate run a) b =
        { b with frameQueue := b.frameQueue ++ q, rendered := b.rendered ++ q } := by
    intro q
    induction q with
    | nil => intro b; simp
    | cons x q ih =>
      intro b
      rw [List.foldl_cons, ih]
      simp [animate, List.append_assoc]
  simp [frame, key]

theorem step_disposed (a : App) (e : Event) (t : Texture)
    (h : Resource.texture t ∉ a.disposed) : Resource.texture t ∉ (step a e).disposed := by
  cases e with
  | upload file mapType => cases file <;> simpa [step, handleUpload] using h
  | loaded i =>
    simp only [step, loaded]
    split
    · exact h
    · exact onLoad_disposed _ _ _ t h
  | loadFailed i => simpa [step, loadFailed] using h
  | frame => simpa [step, frame_eq] using h
  | _ => exact setState_disposed _ a t h

/-- No event calls `dispose()` on a texture. -/
theorem runEvents_disposed (events : List Event) (a : App) (t : Texture)
    (h : Resource.texture t ∉ a.disposed) :
    Resource.texture t ∉ (runEvents events a).disposed := by
  induction events generalizing a with
  | nil => simpa [runEvents] using h
  | cons e rest ih => exact ih (step a e) (step_disposed a e t h)

theorem runEvents_append (xs ys : List Event) (a : App) :
    runEvents (xs ++ ys) a = runEvents ys (runEvents xs a) := by
  simp [runEvents, List.foldl_append]

theorem mounted_disposed : App.mounted.disposed = [] := by
  simp [App.mounted, App.unmounted, runEffect, animate]

theorem setState_loopsLeak (f : Config → Config) (a : App) (h : loopsLeak a) :
    loopsLeak (setState f a) := by
  unfold setState
  by_cases hc : f a.config = a.config
  · simpa [hc] using h
  · obtain ⟨h1, h2, h3⟩ := h
    simp only [hc, if_false]
    refine ⟨?_, ?_, ?_⟩
    · simp [runEffect, cleanup, animate, h1, List.range_succ]
    · simp [runEffect, cleanup, animate]
    · intro v hv
      have hv' : v < a.runs := by simpa [runEffect, cleanup, animate] using hv
      by_cases hlt : v < a.current
      · have := h3 v hlt
        simp only [tornDown] at this ⊢
        simp [runEffect, cleanup, animate, this]
      · have : v = a.current := by omega
        subst this
        simp [tornDown, runEffect, cleanup, animate]

theorem step_loopsLeak (a : App) (e : Event) (h : loopsLeak a) : loopsLeak (step a e) := by
  cases e with
  | upload file mapType => cases file <;> simpa [step, handleUpload, loopsLeak, tornDown] using h
  | loaded i =>
    simp only [step, loaded]
    split
    · exact h
    · unfold onLoad
      have h' : loopsLeak { a with pending := a.pending.eraseIdx i } := by
        simpa [loopsLeak, tornDown] using h
      split_ifs
      · exact setState_loopsLeak _ _ h'
      · exact setState_loopsLeak _ _ h'
      · exact setState_loopsLeak _ _ h'
      · exact setState_loopsLeak _ _ h'
      · exact h'
  | loadFailed i => simpa [step, loadFailed, loopsLeak, tornDown] using h
  | frame => simpa [step, frame_eq, loopsLeak, tornDown] using h
  | _ => exact setState_loopsLeak _ a h

/-- In every state the mounted component can reach, no frame loop has stopped. -/
theorem runEvents_loopsLeak (events : List Event) :
    loopsLeak (runEvents events App.mounted) := by
  have key : ∀ (a : App), loopsLeak a → loopsLeak (runEvents events a) := by
    induction events with
    | nil => intro a h; simpa [runEvents] using h
    | cons e rest ih => intro a h; exact ih (step a e) (step_loopsLeak a e h)
  apply key
  simp [loopsLeak, App.mounted, App.unmounted, runEffect, animate, tornDown, List.range_succ]

/-- C4: when the decode of an upload in flight completes, if its channel is one
of `color`, `normal`, `roughness`, `metalness` then the channel holds the
decoded texture, the other three channels are unchanged, the material derived
from the new state binds the texture in the slot of the channel (`map`,
`normalMap`, `roughnessMap`, `metalnessMap`) and the other slots as before, and
that material is the live one whenever the texture is new to the channel; if
the channel name is none of the four, the state is unchanged.  An upload with no
file selected changes nothing at all; starting a load changes no channel, and
neither does a decode that fails. -/
theorem upload_completion (a : App) (i : Nat) (u : Upload)
    (hu : a.pending[i]? = some u) :
    (u.mapType ∈ channels →
        (loaded i a).config.channel u.mapType = some u.texture
        ∧ (∀ c ∈ channels, c ≠ u.mapType →
            (loaded i a).config.channel c = a.config.channel c)
        ∧ (∃ m, deriveMaterial (loaded i a).config = some m
            ∧ m.slot u.mapType = some u.texture
            ∧ ∀ c ∈ channels, c ≠ u.mapType → m.slot c = a.config.channel c)
        ∧ (a.config.channel u.mapType ≠ some u.texture →
            (loaded i a).material = deriveMaterial (loaded i a).config))
    ∧ (u.mapType ∉ channels → (loaded i a).config = a.config)
    ∧ (∀ mapType, handleUpload none mapType a = a)
    ∧ (∀ file mapType, (handleUpload file mapType a).config = a.config)
    ∧ (loadFailed i a).config = a.config := by
  rw [loaded_eq a i u hu]
  refine ⟨?_, ?_, fun _ => rfl, fun file _ => by cases file <;> rfl, rfl⟩
  · intro hc
    have hself := onLoad_channel_self u.mapType u.texture
      { a with pending := a.pending.eraseIdx i } hc
    have hother : ∀ c ∈ channels, c ≠ u.mapType →
        (onLoad u.mapType u.texture { a with pending := a.pending.eraseIdx i }).config.channel c
          = a.config.channel c := fun c hc' hne =>
      onLoad_channel_other u.mapType c u.texture _ hc hc' hne
    obtain ⟨m, hm, hslot⟩ := deriveMaterial_slot
      (onLoad u.mapType u.texture { a with pending := a.pending.eraseIdx i }).config
    refine ⟨hself, hother, ⟨m, hm, ?_, ?_⟩, ?_⟩
    · rw [hslot _ hc, hself]
    · intro c hc' hne
      rw [hslot _ hc', hother c hc' hne]
    · intro hne
      exact onLoad_material _ _ _ hc hne
  · intro hc
    simp only [mem_channels, not_or] at hc
    simp [onLoad_config, hc]

/-- An image uploaded to the `normal` channel of the mounted component: after
the decode completes the channel holds its texture and the next material binds
it as `normalMap`. -/
theorem upload_completion_witness :
    (handleUpload (some 5) "normal" App.mounted).pending[0]? = some ⟨⟨0, 5⟩, "normal"⟩
    ∧ (loaded 0 (handleUpload (some 5) "normal" App.mounted)).config.channel "normal" =
        some ⟨0, 5⟩
    ∧ ∃ m, deriveMaterial (loaded 0 (handleUpload (some 5) "normal" App.mounted)).config =
        some m ∧ m.slot "normal" = some ⟨0, 5⟩ := by
  have hp : (handleUpload (some 5) "normal" App.mounted).pending[0]? =
      some ⟨⟨0, 5⟩, "normal"⟩ := by
    simp [handleUpload, App.mounted, App.unmounted, runEffect, animate]
  have h := (upload_completion (handleUpload (some 5) "normal" App.mounted) 0
    ⟨⟨0, 5⟩, "normal"⟩ hp).1 (by simp [channels])
  obtain ⟨m, hm, hs, _⟩ := h.2.2.1
  exact ⟨hp, h.1, m, hm, hs⟩

/-- C3 (the claim fails): upload A (file 10) and then upload B (file 20) are
issued on the `normal` channel; B's decode completes first and the channel
holds B's texture; then A's decode completes and the channel holds A's texture,
not B's, with no load left in flight. -/
theorem later_upload_overwritten :
    (runEvents [.upload (some 10) "normal", .upload (some 20) "normal"] App.mounted).pending =
        [⟨⟨0, 10⟩, "normal"⟩, ⟨⟨1, 20⟩, "normal"⟩]
    ∧ (runEvents [.upload (some 10) "normal", .upload (some 20) "normal", .loaded 1]
        App.mounted).config.channel "normal" = some ⟨1, 20⟩
    ∧ (runEvents [.upload (some 10) "normal", .upload (some 20) "normal", .loaded 1, .loaded 0]
        App.mounted).config.channel "normal" = some ⟨0, 10⟩
    ∧ (runEvents [.upload (some 10) "normal", .upload (some 20) "normal", .loaded 1, .loaded 0]
        App.mounted).config.channel "normal" ≠ some ⟨1, 20⟩
    ∧ (runEvents [.upload (some 10) "normal", .upload (some 20) "normal", .loaded 1, .loaded 0]
        App.mounted).pending = [] := by
  simp [runEvents, step, handleUpload, loaded, App.mounted, App.unmounted, onLoad_config,
    onLoad_pending, runEffect, animate, Config.channel]

/-- C3 (amended): of two uploads in flight on the same channel, A issued before
B, the texture published after both decodes have completed is the one of the
decode that completed last: A's when B's decode completes first, B's when A's
completes first. -/
theorem last_completed_wins (a : App) (i j : Nat) (uA uB : Upload)
    (hA : a.pending[i]? = some uA) (hB : a.pending[j]? = some uB) (hij : i < j)
    (hsame : uA.mapType = uB.mapType) (hc : uA.mapType ∈ channels) :
    (loaded i (loaded j a)).config.channel uA.mapType = some uA.texture
    ∧ (loaded (j - 1) (loaded i a)).config.channel uA.mapType = some uB.texture := by
  constructor
  · apply loaded_channel _ _ _ _ hc
    rw [loaded_pending a j uB hB, List.getElem?_eraseIdx_of_lt _ _ _ hij, hA]
  · rw [hsame]
    apply loaded_channel _ _ _ _ (hsame ▸ hc)
    rw [loaded_pending a i uA hA, List.getElem?_eraseIdx_of_ge _ _ _ (by omega)]
    have : j - 1 + 1 = j := by omega
    rw [this, hB]

/-- Two uploads in flight on the `roughness` channel of the mounted component,
files 3 and 4: whichever decode completes last is the one published. -/
theorem last_completed_wins_witness :
    (loaded 0 (loaded 1 (handleUpload (some 4) "roughness"
        (handleUpload (some 3) "roughness" App.mounted)))).config.channel "roughness" =
      some ⟨0, 3⟩
    ∧ (loaded 0 (loaded 0 (handleUpload (some 4) "roughness"
        (handleUpload (some 3) "roughness" App.mounted)))).config.channel "roughness" =
      some ⟨1, 4⟩ :=
  last_completed_wins
    (handleUpload (some 4) "roughness" (handleUpload (some 3) "roughness" App.mounted))
    0 1 ⟨⟨0, 3⟩, "roughness"⟩ ⟨⟨1, 4⟩, "roughness"⟩
    (by simp [handleUpload, App.mounted, App.unmounted, runEffect, animate])
    (by simp [handleUpload, App.mounted, App.unmounted, runEffect, animate])
    (by decide) rfl (by simp [channels])

/-- C8 (the claim fails): an image (file 10) is uploaded to the `normal`
channel and decoded, then a second one (file 20): the channel holds the second
texture, the calls of `dispose()` made so far are those of the two cleanups
(geometry, material and renderer of runs 0 and 1), and neither texture is among
them: two textures of the channel are unreleased. -/
theorem replaced_texture_kept :
    (runEvents [.upload (some 10) "normal", .loaded 0] App.mounted).config.channel "normal" =
        some ⟨0, 10⟩
    ∧ (runEvents [.upload (some 10) "normal", .loaded 0, .upload (some 20) "normal", .loaded 0]
        App.mounted).config.channel "normal" = some ⟨1, 20⟩
    ∧ (runEvents [.upload (some 10) "normal", .loaded 0, .upload (some 20) "normal", .loaded 0]
        App.mounted).disposed =
        [.geometry 0, .material 0, .renderer 0, .geometry 1, .material 1, .renderer 1]
    ∧ Resource.texture ⟨0, 10⟩ ∉
        (runEvents [.upload (some 10) "normal", .loaded 0, .upload (some 20) "normal", .loaded 0]
          App.mounted).disposed
    ∧ Resource.texture ⟨1, 20⟩ ∉
        (runEvents [.upload (some 10) "normal", .loaded 0, .upload (some 20) "normal", .loaded 0]
          App.mounted).disposed := by
  simp [runEvents, step, handleUpload, loaded, App.mounted, App.unmounted, onLoad, setState,
    runEffect, animate, cleanup, Config.channel, Config.initial]

/-- C8 (amended): in every state the mounted component can reach, when a channel
holds a texture `t1` and an upload to the same channel completes, the new
texture replaces `t1` in the channel and `t1` is not released, then or after any
later events: no texture is ever among the objects `dispose()` was called
on. -/
theorem replaced_texture_never_released (events later : List Event) (i : Nat) (u : Upload)
    (t1 : Texture)
    (hu : (runEvents events App.mounted).pending[i]? = some u)
    (hc : u.mapType ∈ channels)
    (_h1 : (runEvents events App.mounted).config.channel u.mapType = some t1) :
    (loaded i (runEvents events App.mounted)).config.channel u.mapType = some u.texture
    ∧ Resource.texture t1 ∉ (loaded i (runEvents events App.mounted)).disposed
    ∧ Resource.texture t1 ∉ (runEvents later (loaded i (runEvents events App.mounted))).disposed
    ∧ (∀ t, Resource.texture t ∉
        (runEvents later (loaded i (runEvents events App.mounted))).disposed) := by
  have hl : loaded i (runEvents events App.mounted) =
      runEvents (events ++ [.loaded i]) App.mounted := by
    simp [runEvents_append, runEvents, step]
  have hm : ∀ t, Resource.texture t ∉ App.mounted.disposed := by simp [mounted_disposed]
  refine ⟨loaded_channel _ i u hu hc, ?_, ?_, ?_⟩
  · rw [hl]; exact runEvents_disposed _ _ _ (hm t1)
  · rw [hl]; exact runEvents_disposed _ _ _ (runEvents_disposed _ _ _ (hm t1))
  · intro t; rw [hl]; exact runEvents_disposed _ _ _ (runEvents_disposed _ _ _ (hm t))

/-- The `metalness` channel holds the texture of file 7 when the decode of file
8 completes: the texture of file 8 takes its place and the texture of file 7 is
not released, also after two more frames. -/
theorem replaced_texture_never_released_witness :
    (loaded 0 (runEvents [.upload (some 7) "metalness", .loaded 0, .upload (some 8) "metalness"]
        App.mounted)).config.channel "metalness" = some ⟨1, 8⟩
    ∧ Resource.texture ⟨0, 7⟩ ∉
        (runEvents [.frame, .frame] (loaded 0 (runEvents
          [.upload (some 7) "metalness", .loaded 0, .upload (some 8) "metalness"]
          App.mounted))).disposed := by
  have h := replaced_texture_never_released
    [.upload (some 7) "metalness", .loaded 0, .upload (some 8) "metalness"] [.frame, .frame]
    0 ⟨⟨1, 8⟩, "metalness"⟩ ⟨0, 7⟩
    (by simp [runEvents, step, handleUpload, loaded, App.mounted, App.unmounted, onLoad,
          setState, runEffect, animate, cleanup, Config.initial])
    (by simp [channels])
    (by simp [runEvents, step, handleUpload, loaded, App.mounted, App.unmounted, onLoad,
          setState, runEffect, animate, cleanup, Config.initial, Config.channel])
  exact ⟨h.1, h.2.2.1⟩

/-- C9 (the code does not do this): the mounted component receives one change
of configuration (`finish` set to `matte`).  The cleanup of run 0 has executed:
its resize listener is gone and its geometry, material and renderer are
disposed.  Yet `animate` of run 0 still waits in the frame queue next to that
of run 1, so two frame loops are active; at the next frame run 0 renders again
and requests a frame again.  In every reachable state, all the runs started so
far wait in the frame queue, the torn down ones included, and each of them
renders at the next frame. -/
theorem frame_loop_survives_teardown :
    tornDown 0 (runEvents [.setFinish "matte"] App.mounted)
    ∧ (runEvents [.setFinish "matte"] App.mounted).disposed =
        [.geometry 0, .material 0, .renderer 0]
    ∧ (runEvents [.setFinish "matte"] App.mounted).listeners = [1]
    ∧ (runEvents [.setFinish "matte"] App.mounted).current = 1
    ∧ (runEvents [.setFinish "matte"] App.mounted).frameQueue = [0, 1]
    ∧ activeLoops (runEvents [.setFinish "matte"] App.mounted) = 2
    ∧ (runEvents [.setFinish "matte"] App.mounted).rendered = [0, 1]
    ∧ (runEvents [.setFinish "matte", .frame] App.mounted).rendered = [0, 1, 0, 1]
    ∧ (runEvents [.setFinish "matte", .frame] App.mounted).frameQueue = [0, 1]
    ∧ (∀ events : List Event,
        activeLoops (runEvents events App.mounted) =
          (runEvents events App.mounted).current + 1
        ∧ (∀ v, v < (runEvents events App.mounted).current →
            tornDown v (runEvents events App.mounted)
            ∧ v ∈ (runEvents events App.mounted).frameQueue
            ∧ v ∈ (frame (runEvents events App.mounted)).frameQueue)
        ∧ (frame (runEvents events App.mounted)).rendered =
            (runEvents events App.mounted).rendered
              ++ List.range ((runEvents events App.mounted).current + 1)) := by
  refine ⟨?_, ?_, ?_, ?_, ?_, ?_, ?_, ?_, ?_, ?_⟩
  iterate 9
    simp [runEvents, step, frame_eq, setState, App.mounted, App.unmounted, runEffect, animate,
      cleanup, Config.initial, tornDown, activeLoops]
  intro events
  obtain ⟨h1, h2, h3⟩ := runEvents_loopsLeak events
  refine ⟨?_, ?_, ?_⟩
  · simp [activeLoops, h1, h2]
  · intro v hv
    refine ⟨h3 v hv, ?_, ?_⟩
    · rw [h1, List.mem_range]; omega
    · rw [frame_eq]
      show v ∈ (runEvents events App.mounted).frameQueue
      rw [h1, List.mem_range]; omega
  · rw [frame_eq]
    show (runEvents events App.mounted).rendered ++ (runEvents events App.mounted).frameQueue = _
    rw [h1, h2]

end CardConfigurator
